import Mathlib

/-!
Verification development for the VFIO container/group/address-space lifecycle
and DMA-mapping engine (hw/vfio/common.c).

The C code is shallowly embedded: host kernel calls (ioctl on the container or
group descriptor, mmap, pread/pwrite) are modelled by oracle parameters giving
the host's response, and each embedded operation returns both its C return
value and the list of host calls (or events) it issued, so that exactly-once
and ordering properties can be stated about the issued traces.  Machine
integers (hwaddr, uint64_t) are modelled as Nat with explicit reductions
modulo 2^64 where the C arithmetic wraps; errno values are Nat (0 = success);
C return values are Int (0 or -errno).
-/

/-- errno value EBUSY (resource busy), as used by the busy-retry policy. -/
def EBUSY : Nat := 16

/-- errno value EPERM (operation not permitted). -/
def EPERM : Nat := 1

/-- errno value EFAULT (bad address), used for out-of-bounds IOVA intervals. -/
def EFAULT : Nat := 14

/-- Value of 2^64, the modulus of hwaddr / uint64_t arithmetic. -/
def U64 : Nat := 2 ^ 64

/-- A host DMA call issued on the container descriptor:
`VFIO_IOMMU_MAP_DMA` with its (iova, size, vaddr, readonly) payload, or
`VFIO_IOMMU_UNMAP_DMA` with its (iova, size) payload. -/
inductive HostCall where
  | mapDMA (iova size vaddr : Nat) (readonly : Bool)
  | unmapDMA (iova size : Nat)
deriving DecidableEq, Repr

/-- `vfio_dma_unmap`: issue one `VFIO_IOMMU_UNMAP_DMA` host call.  `host k c`
is the errno the host answers for the `k`-th call of the enclosing map
operation (0 = success).  Returns the C return value (0 or -errno) and the
issued call. -/
def vfio_dma_unmap (host : Nat → HostCall → Nat) (k : Nat) (iova size : Nat) :
    Int × List HostCall :=
  let c := HostCall.unmapDMA iova size
  let e := host k c
  (if e = 0 then 0 else -(e : Int), [c])

/-- `vfio_dma_map`: try `VFIO_IOMMU_MAP_DMA`; if the host answers EBUSY,
unmap the same (iova, size) range and, when that unmap succeeds, retry the
map exactly once.  Any other failure (and a failed unmap, or a failed retry)
reports -errno with no further attempts.  The host oracle is consulted with
the index of the call within this operation (0 = first map, 1 = unmap,
2 = retried map). -/
def vfio_dma_map (host : Nat → HostCall → Nat) (iova size vaddr : Nat)
    (readonly : Bool) : Int × List HostCall :=
  let c := HostCall.mapDMA iova size vaddr readonly
  let e1 := host 0 c
  if e1 = 0 then
    (0, [c])
  else if e1 = EBUSY then
    let u := vfio_dma_unmap host 1 iova size
    if u.1 = 0 then
      let e2 := host 2 c
      (if e2 = 0 then 0 else -(e2 : Int), [c] ++ u.2 ++ [c])
    else
      (u.1, [c] ++ u.2)
  else
    (-(e1 : Int), [c])

/-- C1: a DMA map whose first host attempt fails busy issues exactly one
unmap of the same (iova, size) range and then exactly one retry of the map
(provided the unmap succeeded); if the unmap fails there is no retry, and a
failed retry reports failure with no further attempts; a first failure other
than busy causes no retry at all. -/
theorem C1_dma_map_busy_retry (host : Nat → HostCall → Nat)
    (iova size vaddr : Nat) (readonly : Bool) :
    (host 0 (HostCall.mapDMA iova size vaddr readonly) = EBUSY →
      (host 1 (HostCall.unmapDMA iova size) = 0 →
        (vfio_dma_map host iova size vaddr readonly).2 =
          [HostCall.mapDMA iova size vaddr readonly,
           HostCall.unmapDMA iova size,
           HostCall.mapDMA iova size vaddr readonly] ∧
        ((vfio_dma_map host iova size vaddr readonly).1 = 0 ↔
          host 2 (HostCall.mapDMA iova size vaddr readonly) = 0)) ∧
      (host 1 (HostCall.unmapDMA iova size) ≠ 0 →
        (vfio_dma_map host iova size vaddr readonly).2 =
          [HostCall.mapDMA iova size vaddr readonly,
           HostCall.unmapDMA iova size] ∧
        (vfio_dma_map host iova size vaddr readonly).1 =
          -(host 1 (HostCall.unmapDMA iova size) : Int))) ∧
    (host 0 (HostCall.mapDMA iova size vaddr readonly) ≠ 0 →
     host 0 (HostCall.mapDMA iova size vaddr readonly) ≠ EBUSY →
      (vfio_dma_map host iova size vaddr readonly).2 =
        [HostCall.mapDMA iova size vaddr readonly] ∧
      (vfio_dma_map host iova size vaddr readonly).1 =
        -(host 0 (HostCall.mapDMA iova size vaddr readonly) : Int)) := by
  refine ⟨fun h1 => ⟨fun hu => ?_, fun hu => ?_⟩, fun h1 hb => ?_⟩
  · by_cases h2 : host 2 (HostCall.mapDMA iova size vaddr readonly) = 0 <;>
      simp [vfio_dma_map, vfio_dma_unmap, h1, hu, h2, EBUSY, neg_eq_zero]
  · simp [vfio_dma_map, vfio_dma_unmap, h1, hu, EBUSY]
  · simp [vfio_dma_map, vfio_dma_unmap, h1, hb]

/-- Witness for C1 at a concrete host: the first map answers EBUSY, the
unmap succeeds, and the retried map succeeds. -/
theorem C1_dma_map_busy_retry_witness :
    ((fun n (_ : HostCall) => if n = 0 then EBUSY else 0) 0
        (HostCall.mapDMA 4096 4096 0 false) = EBUSY) ∧
    ((fun n (_ : HostCall) => if n = 0 then EBUSY else 0) 1
        (HostCall.unmapDMA 4096 4096) = 0) ∧
    ((vfio_dma_map (fun n _ => if n = 0 then EBUSY else 0)
        4096 4096 0 false).2 =
      [HostCall.mapDMA 4096 4096 0 false,
       HostCall.unmapDMA 4096 4096,
       HostCall.mapDMA 4096 4096 0 false]) := by
  refine ⟨by decide, by decide, ?_⟩
  exact (((C1_dma_map_busy_retry (fun n _ => if n = 0 then EBUSY else 0)
    4096 4096 0 false).1 (by decide)).1 (by decide)).1

/-- An event of a trapped device-region access (`vfio_region_read` /
`vfio_region_write`): a positioned read or write on the device descriptor at
a file offset for a byte count, the end-of-interrupt hook invocation
(`vbasedev->ops->vfio_eoi`), or the fatal `hw_error` abort. -/
inductive IOEvent where
  | preadEv (off len : Nat)
  | pwriteEv (off len : Nat)
  | eoiEv
  | hwErrorEv
deriving DecidableEq, Repr

/-- `vfio_region_write`: for an access width of 1, 2 or 4 bytes, convert the
data to little endian, issue a positioned write of `size` bytes at
`fd_offset + addr` (a short write is only reported, not retried), and invoke
the EOI hook; any other width is a fatal `hw_error` (the call never returns,
modelled as `none` with no write and no EOI).  `completed` is the byte count
the host's pwrite reports. -/
def vfio_region_write (fd_offset addr data size completed : Nat) :
    Option Unit × List IOEvent :=
  if size = 1 ∨ size = 2 ∨ size = 4 then
    (some (), [IOEvent.pwriteEv (fd_offset + addr) size, IOEvent.eoiEv])
  else
    (none, [IOEvent.hwErrorEv])

/-- `vfio_region_read`: issue a positioned read of `size` bytes at
`fd_offset + addr`; if the host completes fewer bytes than requested the
call returns the all-ones value `(uint64_t)-1` immediately; otherwise the
little-endian value `v` read from the device is decoded at the access width
and the EOI hook is invoked before returning; a width other than 1, 2 or 4
is a fatal `hw_error`.  `completed` is the byte count the host's pread
reports and `v` the value held in the read buffer. -/
def vfio_region_read (fd_offset addr size completed v : Nat) :
    Option Nat × List IOEvent :=
  if completed ≠ size then
    (some (U64 - 1), [IOEvent.preadEv (fd_offset + addr) size])
  else if size = 1 ∨ size = 2 ∨ size = 4 then
    (some (v % 2 ^ (8 * size)),
     [IOEvent.preadEv (fd_offset + addr) size, IOEvent.eoiEv])
  else
    (none, [IOEvent.preadEv (fd_offset + addr) size, IOEvent.hwErrorEv])

/-- C2 counterexample: a 4-byte trapped read whose positioned read completes
0 bytes returns to the guest without invoking the EOI hook at all, refuting
the claim that every vfio_region_read invokes the hook exactly once
regardless of whether the positioned read transfers fewer bytes than
requested. -/
theorem C2_read_short_no_eoi :
    (vfio_region_read 0 0 4 0 0).1.isSome = true ∧
    (vfio_region_read 0 0 4 0 0).2.count IOEvent.eoiEv = 0 := by
  decide

/-- C2 (amended): every trapped write of width 1, 2 or 4 concludes by
invoking the EOI hook exactly once (as its final action) regardless of the
completed byte count, and so does every trapped read of width 1, 2 or 4
whose positioned read completes fully; a read whose positioned read
completes fewer bytes than requested returns without invoking the hook. -/
theorem C2_eoi_policy (fd_offset addr data size completed v : Nat) :
    (size = 1 ∨ size = 2 ∨ size = 4 →
      (vfio_region_write fd_offset addr data size completed).2.count
          IOEvent.eoiEv = 1 ∧
      (vfio_region_write fd_offset addr data size completed).2.getLast? =
          some IOEvent.eoiEv) ∧
    (completed = size → (size = 1 ∨ size = 2 ∨ size = 4) →
      (vfio_region_read fd_offset addr size completed v).2.count
          IOEvent.eoiEv = 1 ∧
      (vfio_region_read fd_offset addr size completed v).2.getLast? =
          some IOEvent.eoiEv) ∧
    (completed ≠ size →
      (vfio_region_read fd_offset addr size completed v).2.count
          IOEvent.eoiEv = 0) := by
  refine ⟨fun hs => ?_, fun hc hs => ?_, fun hc => ?_⟩
  · simp [vfio_region_write, hs]
  · simp [vfio_region_read, hc, hs]
  · simp [vfio_region_read, hc]

/-- Witness for C2 (amended) at concrete accesses: a 4-byte write with a
full pwrite, a 4-byte read with a full pread, and a 4-byte read with a short
pread. -/
theorem C2_eoi_policy_witness :
    ((vfio_region_write 16 0 7 4 4).2.count IOEvent.eoiEv = 1 ∧
     (vfio_region_write 16 0 7 4 4).2.getLast? = some IOEvent.eoiEv) ∧
    ((vfio_region_read 16 0 4 4 7).2.count IOEvent.eoiEv = 1 ∧
     (vfio_region_read 16 0 4 4 7).2.getLast? = some IOEvent.eoiEv) ∧
    ((vfio_region_read 16 0 4 1 7).2.count IOEvent.eoiEv = 0) :=
  ⟨(C2_eoi_policy 16 0 7 4 4 7).1 (by decide),
   (C2_eoi_policy 16 0 7 4 4 7).2.1 (by decide) (by decide),
   (C2_eoi_policy 16 0 7 4 1 7).2.2 (by decide)⟩

/-- C9: a trapped read of 1, 2 or 4 bytes whose positioned read completes
fewer bytes than requested returns the all-ones value 2^64 - 1 (that is,
`(uint64_t)-1`) to the guest instead of device data. -/
theorem C9_short_read_all_ones (fd_offset addr size completed v : Nat)
    (hs : size = 1 ∨ size = 2 ∨ size = 4) (hc : completed < size) :
    (vfio_region_read fd_offset addr size completed v).1 = some (U64 - 1) := by
  have hne : completed ≠ size := Nat.ne_of_lt hc
  simp [vfio_region_read, hne]

/-- Witness for C9: a 4-byte read completing 0 bytes returns 2^64 - 1. -/
theorem C9_short_read_all_ones_witness :
    (vfio_region_read 16 0 4 0 99).1 = some (U64 - 1) :=
  C9_short_read_all_ones 16 0 4 0 99 (by decide) (by decide)

/-- One direct-map sub-window of a region (`VFIOMmap`): its offset and size
within the region, whether its memory mapping is currently held
(`mmap != NULL`) and whether it is installed as a subregion overriding the
trapped-access window. -/
structure VFIOMmapW where
  offset : Nat
  size : Nat
  mmapped : Bool
  installed : Bool
deriving DecidableEq, Repr

/-- The mmap-relevant part of a `VFIORegion`: whether a trapped-access
window exists (`region->mem != NULL`) and the list of direct-map
sub-windows. -/
structure VFIORegionM where
  hasMem : Bool
  mmaps : List VFIOMmapW
deriving DecidableEq, Repr

/-- The loop body of `vfio_region_mmap` starting at window index `i`:
memory-map each sub-window in order (`ok j` tells whether the host mmap of
window `j` succeeds, `err j` its errno on failure); on the first failure,
detach and unmap every sub-window mapped so far — including the windows
before the failing one — and return `-errno`; on success install each
window. -/
def vfio_region_mmap_go (ok : Nat → Bool) (err : Nat → Nat) :
    Nat → List VFIOMmapW → Int × List VFIOMmapW
  | _, [] => (0, [])
  | i, w :: rest =>
    if ok i then
      let r := vfio_region_mmap_go ok err (i + 1) rest
      if r.1 = 0 then
        (0, { w with mmapped := true, installed := true } :: r.2)
      else
        (r.1, { w with mmapped := false, installed := false } :: r.2)
    else
      (-(err i : Int), { w with mmapped := false, installed := false } :: rest)

/-- `vfio_region_mmap`: a region without a trapped-access window is a no-op;
otherwise memory-map and install the direct-map sub-windows in order with
all-or-nothing rollback on failure. -/
def vfio_region_mmap (ok : Nat → Bool) (err : Nat → Nat)
    (region : VFIORegionM) : Int × VFIORegionM :=
  if !region.hasMem then
    (0, region)
  else
    let r := vfio_region_mmap_go ok err 0 region.mmaps
    (r.1, { region with mmaps := r.2 })

/-- C3 counterexample: a region with two requested sub-windows where window 0
maps successfully and window 1 fails.  The claim predicts that exactly
window 0 is still active after the call, but the code rolls back window 0 as
well: after the call returns no window is mapped or installed. -/
theorem C3_rollback_counterexample :
    ((fun i => decide (i = 0)) 0 = true ∧ (fun i => decide (i = 0)) 1 = false) ∧
    (vfio_region_mmap (fun i => decide (i = 0)) (fun _ => 12)
        ⟨true, [⟨0, 4096, false, false⟩, ⟨4096, 4096, false, false⟩]⟩).1 = -12 ∧
    (vfio_region_mmap (fun i => decide (i = 0)) (fun _ => 12)
        ⟨true, [⟨0, 4096, false, false⟩, ⟨4096, 4096, false, false⟩]⟩).2.mmaps =
      [⟨0, 4096, false, false⟩, ⟨4096, 4096, false, false⟩] := by
  decide

/-- Helper for C3: if the window at relative index `k` of the suffix
starting at index `i` fails with a nonzero errno, all windows before it
succeed, and every window starts inactive, then the loop reports `-errno`
and leaves every window of the suffix inactive. -/
theorem vfio_region_mmap_go_all_rolled_back (ok : Nat → Bool) (err : Nat → Nat) :
    ∀ (ws : List VFIOMmapW) (i k : Nat), k < ws.length →
    ok (i + k) = false → err (i + k) ≠ 0 → (∀ j < k, ok (i + j) = true) →
    (∀ w ∈ ws, w.mmapped = false ∧ w.installed = false) →
    (vfio_region_mmap_go ok err i ws).1 = -(err (i + k) : Int) ∧
    (∀ w ∈ (vfio_region_mmap_go ok err i ws).2,
      w.mmapped = false ∧ w.installed = false) := by
  intro ws
  induction ws with
  | nil => intro i k hk; simp at hk
  | cons w rest ih =>
    intro i k hk hfail herr hpre hinact
    match k with
    | 0 =>
      simp only [Nat.add_zero] at hfail herr
      simp only [vfio_region_mmap_go, hfail]
      refine ⟨by simp, ?_⟩
      intro x hx
      rcases List.mem_cons.mp hx with h | h
      · subst h; simp
      · exact hinact x (List.mem_cons_of_mem _ h)
    | k' + 1 =>
      have hik : i + (k' + 1) = i + 1 + k' := by omega
      rw [hik] at hfail herr ⊢
      have hok : ok i = true := by
        have := hpre 0 (Nat.succ_pos k')
        simpa using this
      have hrest := ih (i + 1) k' (Nat.lt_of_succ_lt_succ hk) hfail herr
        (fun j hj => by
          have hj' : i + 1 + j = i + (j + 1) := by omega
          rw [hj']
          exact hpre (j + 1) (Nat.succ_lt_succ hj))
        (fun x hx => hinact x (List.mem_cons_of_mem _ hx))
      have hne : (vfio_region_mmap_go ok err (i + 1) rest).1 ≠ 0 := by
        rw [hrest.1]
        intro h0
        exact herr (by exact_mod_cast neg_eq_zero.mp h0)
      simp only [vfio_region_mmap_go, hok, if_true, if_neg hne]
      constructor
      · exact hrest.1
      · intro x hx
        rcases List.mem_cons.mp hx with h | h
        · subst h; simp
        · exact hrest.2 x h

/-- C3 (amended): for a region with N requested direct-map sub-windows, all
initially inactive, if the memory-mapping of window k (0 ≤ k < N) fails with
a nonzero errno after windows 0..k-1 mapped successfully, then immediately
after `vfio_region_mmap` returns NO window is active: the successfully
mapped windows [0, k) are unmapped and detached again (all-or-nothing
rollback) and the call returns the failing mmap's -errno. -/
theorem C3_mmap_rollback_all_or_nothing (ok : Nat → Bool) (err : Nat → Nat)
    (region : VFIORegionM) (k : Nat)
    (hmem : region.hasMem = true)
    (hk : k < region.mmaps.length)
    (hfail : ok k = false) (herr : err k ≠ 0)
    (hpre : ∀ j < k, ok j = true)
    (hinact : ∀ w ∈ region.mmaps, w.mmapped = false ∧ w.installed = false) :
    (vfio_region_mmap ok err region).1 = -(err k : Int) ∧
    ∀ w ∈ (vfio_region_mmap ok err region).2.mmaps,
      w.mmapped = false ∧ w.installed = false := by
  have h := vfio_region_mmap_go_all_rolled_back ok err region.mmaps 0 k hk
    (by simpa using hfail) (by simpa using herr)
    (fun j hj => by simpa using hpre j hj) hinact
  constructor
  · simpa [vfio_region_mmap, hmem] using h.1
  · simpa [vfio_region_mmap, hmem] using h.2

/-- Witness for C3 (amended): two windows, window 0 succeeds, window 1 fails
with errno 12; the call returns -12 and both windows end up inactive. -/
theorem C3_mmap_rollback_all_or_nothing_witness :
    (vfio_region_mmap (fun i => decide (i = 0)) (fun _ => 12)
        ⟨true, [⟨0, 4096, false, false⟩, ⟨8192, 4096, false, false⟩]⟩).1 = -12 ∧
    ∀ w ∈ (vfio_region_mmap (fun i => decide (i = 0)) (fun _ => 12)
        ⟨true, [⟨0, 4096, false, false⟩, ⟨8192, 4096, false, false⟩]⟩).2.mmaps,
      w.mmapped = false ∧ w.installed = false :=
  C3_mmap_rollback_all_or_nothing (fun i => decide (i = 0)) (fun _ => 12)
    ⟨true, [⟨0, 4096, false, false⟩, ⟨8192, 4096, false, false⟩]⟩ 1
    (by decide) (by decide) (by decide) (by decide)
    (by decide) (by decide)

/-- A host EEH call (`VFIO_EEH_PE_OP` ioctl) with its operation code. -/
inductive EEHCall where
  | peOp (op : Nat)
deriving DecidableEq, Repr

/-- `vfio_eeh_container_ok`: the container's bound-group list must hold
exactly one group — an empty list fails, and a list with a second element
fails. -/
def vfio_eeh_container_ok (group_list : List Nat) : Bool :=
  match group_list with
  | [] => false
  | [_] => true
  | _ :: _ :: _ => false

/-- `vfio_eeh_container_op`: reject with -EPERM and no host call unless the
container has exactly one bound group; otherwise issue the `VFIO_EEH_PE_OP`
host call and forward its result (-errno on failure, 0 on success).
`hostRet` is the ioctl's return value and `hostErrno` the errno it leaves on
failure. -/
def vfio_eeh_container_op (hostRet : Int) (hostErrno : Nat)
    (group_list : List Nat) (op : Nat) : Int × List EEHCall :=
  if !vfio_eeh_container_ok group_list then
    (-(EPERM : Int), [])
  else if hostRet < 0 then
    (-(hostErrno : Int), [EEHCall.peOp op])
  else
    (0, [EEHCall.peOp op])

/-- Helper: the single-group test of `vfio_eeh_container_ok` is exactly a
length-one group list. -/
theorem vfio_eeh_container_ok_iff (gs : List Nat) :
    vfio_eeh_container_ok gs = true ↔ gs.length = 1 := by
  match gs with
  | [] => simp [vfio_eeh_container_ok]
  | [g] => simp [vfio_eeh_container_ok]
  | g :: g' :: rest => simp [vfio_eeh_container_ok]

/-- C4: an EEH operation on a container whose bound-group list does not hold
exactly one group returns -EPERM and issues no host EEH call; with exactly
one bound group it issues the host call and forwards that call's result
(0 on host success, -errno on host failure). -/
theorem C4_eeh_single_group (hostRet : Int) (hostErrno : Nat)
    (gs : List Nat) (op : Nat) :
    (gs.length ≠ 1 →
      vfio_eeh_container_op hostRet hostErrno gs op = (-(EPERM : Int), [])) ∧
    (gs.length = 1 →
      (vfio_eeh_container_op hostRet hostErrno gs op).2 = [EEHCall.peOp op] ∧
      (vfio_eeh_container_op hostRet hostErrno gs op).1 =
        if hostRet < 0 then -(hostErrno : Int) else 0) := by
  constructor
  · intro hne
    have hok : vfio_eeh_container_ok gs = false := by
      rcases Bool.eq_false_or_eq_true (vfio_eeh_container_ok gs) with h | h
      · exact absurd ((vfio_eeh_container_ok_iff gs).mp h) hne
      · exact h
    simp [vfio_eeh_container_op, hok]
  · intro h1
    have hok : vfio_eeh_container_ok gs = true :=
      (vfio_eeh_container_ok_iff gs).mpr h1
    by_cases hr : hostRet < 0 <;> simp [vfio_eeh_container_op, hok, hr]

/-- Witness for C4 at concrete containers: a two-group container is rejected
with -EPERM and no host call; a one-group container issues the host call and
forwards the host's failure errno. -/
theorem C4_eeh_single_group_witness :
    (vfio_eeh_container_op (-1) 5 [3, 4] 1 = (-(EPERM : Int), [])) ∧
    ((vfio_eeh_container_op (-1) 5 [3] 1).2 = [EEHCall.peOp 1] ∧
     (vfio_eeh_container_op (-1) 5 [3] 1).1 =
       if (-1 : Int) < 0 then -((5 : Nat) : Int) else 0) :=
  ⟨(C4_eeh_single_group (-1) 5 [3, 4] 1).1 (by decide),
   (C4_eeh_single_group (-1) 5 [3] 1).2 (by decide)⟩

/-- A `VFIOAddressSpace` registry entry: the opaque address-space identity it
serves (modelled by a Nat) and the list of containers bound to it (modelled
by their handles). -/
structure VFIOAddressSpace where
  as : Nat
  containers : List Nat
deriving DecidableEq, Repr

/-- `vfio_get_address_space`: scan the process-wide registry for an entry
whose address-space identity matches; if none exists, create an empty entry
and insert it at the head of the registry.  Returns the entry and the
updated registry. -/
def vfio_get_address_space (registry : List VFIOAddressSpace) (as : Nat) :
    VFIOAddressSpace × List VFIOAddressSpace :=
  match registry.find? (fun space => space.as == as) with
  | some space => (space, registry)
  | none =>
    let space : VFIOAddressSpace := ⟨as, []⟩
    (space, space :: registry)

/-- `vfio_put_address_space`: remove and free the entry iff its container
list is empty. -/
def vfio_put_address_space (registry : List VFIOAddressSpace)
    (space : VFIOAddressSpace) : List VFIOAddressSpace :=
  if space.containers.isEmpty then registry.erase space else registry

/-- C7: `vfio_get_address_space` returns the existing registry entry when
one exists and otherwise creates and registers an empty one, so two
consecutive calls for the same identity return the same entry and the
second call leaves the registry untouched; `vfio_put_address_space` removes
the entry when its container list is empty (the registry holding it at most
once) and leaves the registry unchanged when the container list is
nonempty. -/
theorem C7_address_space_registry (registry : List VFIOAddressSpace)
    (as : Nat) (space : VFIOAddressSpace) :
    (vfio_get_address_space (vfio_get_address_space registry as).2 as =
      vfio_get_address_space registry as) ∧
    ((vfio_get_address_space registry as).1.as = as) ∧
    (space.containers = [] → registry.count space ≤ 1 →
      space ∉ vfio_put_address_space registry space) ∧
    (space.containers ≠ [] →
      vfio_put_address_space registry space = registry) := by
  refine ⟨?_, ?_, fun hc hcount => ?_, fun hc => ?_⟩
  · cases hfind : registry.find? (fun sp => sp.as == as) with
    | some sp =>
      simp [vfio_get_address_space, hfind]
    | none =>
      simp [vfio_get_address_space, hfind]
  · cases hfind : registry.find? (fun sp => sp.as == as) with
    | some sp =>
      have := List.find?_some hfind
      simp only [beq_iff_eq] at this
      simp [vfio_get_address_space, hfind, this]
    | none =>
      simp [vfio_get_address_space, hfind]
  · have hemp : space.containers.isEmpty = true := by simp [hc]
    simp only [vfio_put_address_space, hemp, if_true]
    intro hmem
    have := List.count_erase_self space registry
    have hpos : 0 < (registry.erase space).count space :=
      List.count_pos_iff.mpr hmem
    omega
  · have hemp : space.containers.isEmpty = false := by
      cases h : space.containers with
      | nil => exact absurd h hc
      | cons a l => simp
    simp [vfio_put_address_space, hemp]

/-- Witness for C7 at a concrete registry: get-get on an empty registry, and
put of an entry with an empty container list (held once) and of an entry
with a nonempty container list. -/
theorem C7_address_space_registry_witness :
    (vfio_get_address_space (vfio_get_address_space [] 7).2 7 =
      vfio_get_address_space [] 7) ∧
    ((⟨7, []⟩ : VFIOAddressSpace) ∉
      vfio_put_address_space [⟨7, []⟩] ⟨7, []⟩) ∧
    (vfio_put_address_space [⟨7, [3]⟩] ⟨7, [3]⟩ = [⟨7, [3]⟩]) :=
  ⟨(C7_address_space_registry [] 7 ⟨7, []⟩).1,
   (C7_address_space_registry [⟨7, []⟩] 7 ⟨7, []⟩).2.2.1 (by decide) (by decide),
   (C7_address_space_registry [⟨7, [3]⟩] 7 ⟨7, [3]⟩).2.2.2 (by decide)⟩

/-- A passthrough device as seen by the global reset handler: its identity
and its `needs_reset` flag. -/
structure VDev where
  id : Nat
  needs_reset : Bool
deriving DecidableEq, Repr

/-- An event of the global reset handler: the needs-reset query hook
(`vfio_compute_needs_reset`) or the multi-device hot-reset hook
(`vfio_hot_reset_multi`) invoked on a device. -/
inductive ResetEvent where
  | query (id : Nat)
  | hotReset (id : Nat)
deriving DecidableEq, Repr

/-- First phase of `vfio_reset_handler`: walk every device of every
registered group invoking the needs-reset query hook; the hook's effect is
modelled by the oracle `upd`, giving the `needs_reset` flag it leaves on
each device. -/
def vfio_reset_query_phase (upd : Nat → Bool) :
    List (List VDev) → List (List VDev) × List ResetEvent
  | [] => ([], [])
  | g :: gs =>
    let g' := g.map fun d => { d with needs_reset := upd d.id }
    let evs := g.map fun d => ResetEvent.query d.id
    let r := vfio_reset_query_phase upd gs
    (g' :: r.1, evs ++ r.2)

/-- Second phase of `vfio_reset_handler`: walk every device of every
registered group again and invoke the multi-device hot-reset hook on exactly
those devices whose `needs_reset` flag is set. -/
def vfio_reset_hot_phase : List (List VDev) → List ResetEvent
  | [] => []
  | g :: gs =>
    (g.filter fun d => d.needs_reset).map (fun d => ResetEvent.hotReset d.id)
      ++ vfio_reset_hot_phase gs

/-- `vfio_reset_handler`: query every device of every registered group for
needs-reset, then hot-reset the devices whose flag is set.  Returns the
updated group list and the full event trace. -/
def vfio_reset_handler (upd : Nat → Bool) (groups : List (List VDev)) :
    List (List VDev) × List ResetEvent :=
  let r := vfio_reset_query_phase upd groups
  (r.1, r.2 ++ vfio_reset_hot_phase r.1)

/-- Helper for C8: the devices hot-reset in a group after the query phase
are exactly those the query hook flagged. -/
theorem vfio_reset_hot_of_query (upd : Nat → Bool) (g : List VDev) :
    ((g.map fun d => { d with needs_reset := upd d.id }).filter
        (fun d => d.needs_reset)).map (fun d => ResetEvent.hotReset d.id) =
      (g.filter fun d => upd d.id).map (fun d => ResetEvent.hotReset d.id) := by
  induction g with
  | nil => rfl
  | cons d rest ih =>
    by_cases hd : upd d.id <;>
      simp [List.filter_cons, hd, ih]

/-- C8: the global reset handler runs in two complete phases — the trace is
the needs-reset query of every device of every registered group, in order,
followed by (only after all queries) the hot-reset invocations, and the
hot-reset hook is invoked exactly on those devices whose `needs_reset` flag
is set after the query phase. -/
theorem C8_reset_two_phases (upd : Nat → Bool) (groups : List (List VDev)) :
    (vfio_reset_handler upd groups).2 =
      (groups.map fun g => g.map fun d => ResetEvent.query d.id).flatten ++
      (groups.map fun g =>
        (g.filter fun d => upd d.id).map fun d =>
          ResetEvent.hotReset d.id).flatten := by
  suffices h : ∀ gs : List (List VDev),
      (vfio_reset_query_phase upd gs).2 =
        (gs.map fun g => g.map fun d => ResetEvent.query d.id).flatten ∧
      vfio_reset_hot_phase (vfio_reset_query_phase upd gs).1 =
        (gs.map fun g =>
          (g.filter fun d => upd d.id).map fun d =>
            ResetEvent.hotReset d.id).flatten by
    have hg := h groups
    simp [vfio_reset_handler, hg.1, hg.2]
  intro gs
  induction gs with
  | nil => exact ⟨rfl, rfl⟩
  | cons g rest ih =>
    constructor
    · simp [vfio_reset_query_phase, ih.1]
    · simp [vfio_reset_query_phase, vfio_reset_hot_phase, ih.2,
        vfio_reset_hot_of_query]

/-- A `VFIOGroup` as seen by the group registry: its host isolation-group id
and the address-space identity of its container's space
(`group->container->space->as`). -/
structure VGroup where
  groupid : Nat
  container_as : Nat
deriving DecidableEq, Repr

/-- The process-wide registries touched by `vfio_get_group`: the group list,
and the container and address-space registries (modelled opaquely by the
handles they hold). -/
structure VRegistries where
  groups : List VGroup
  containers : List Nat
  spaces : List Nat
deriving DecidableEq, Repr

/-- `vfio_get_group`: scan the group list for the requested group id.  If it
is registered, return it when its container's address space matches the
requested one and NULL (with nothing touched) otherwise.  If it is not
registered, open the group (oracle `openOk`), query and check its status
(oracles `statusOk`, `viable`), connect it to a container
(`vfio_connect_container`, whose outcome is the oracle `connect`: `none` on
failure — its rollback restores the registries — or the container and
address-space registries it leaves on success), and register the new group
at the head of the group list. -/
def vfio_get_group (openOk statusOk viable : Bool)
    (connect : Option (List Nat × List Nat))
    (st : VRegistries) (groupid as : Nat) : Option VGroup × VRegistries :=
  match st.groups.find? (fun g => g.groupid == groupid) with
  | some g =>
    if g.container_as == as then (some g, st) else (none, st)
  | none =>
    if !openOk then (none, st)
    else if !statusOk then (none, st)
    else if !viable then (none, st)
    else
      match connect with
      | none => (none, st)
      | some (cs, sps) =>
        let g : VGroup := ⟨groupid, as⟩
        (some g, { groups := g :: st.groups, containers := cs, spaces := sps })

/-- C10: calling `vfio_get_group` with a group id that is already registered
returns NULL and leaves the group, container and address-space registries
unchanged when the registered group's container belongs to a different
address space than the requested one, and returns the existing group with
no state created or changed when the address space matches. -/
theorem C10_get_group_registered (openOk statusOk viable : Bool)
    (connect : Option (List Nat × List Nat)) (st : VRegistries)
    (groupid as : Nat) (g : VGroup)
    (hfound : st.groups.find? (fun g => g.groupid == groupid) = some g) :
    (g.container_as ≠ as →
      vfio_get_group openOk statusOk viable connect st groupid as =
        (none, st)) ∧
    (g.container_as = as →
      vfio_get_group openOk statusOk viable connect st groupid as =
        (some g, st)) := by
  constructor
  · intro hne
    simp [vfio_get_group, hfound, hne]
  · intro heq
    simp [vfio_get_group, hfound, heq]

/-- Witness for C10 at a concrete registry holding group 5 in address space
9: requesting it for address space 8 returns NULL with the registries
unchanged, and requesting it for address space 9 returns the registered
group with the registries unchanged. -/
theorem C10_get_group_registered_witness :
    (vfio_get_group true true true none ⟨[⟨5, 9⟩], [1], [9]⟩ 5 8 =
      (none, ⟨[⟨5, 9⟩], [1], [9]⟩)) ∧
    (vfio_get_group true true true none ⟨[⟨5, 9⟩], [1], [9]⟩ 5 9 =
      (some ⟨5, 9⟩, ⟨[⟨5, 9⟩], [1], [9]⟩)) :=
  ⟨(C10_get_group_registered true true true none ⟨[⟨5, 9⟩], [1], [9]⟩ 5 8
      ⟨5, 9⟩ (by decide)).1 (by decide),
   (C10_get_group_registered true true true none ⟨[⟨5, 9⟩], [1], [9]⟩ 5 9
      ⟨5, 9⟩ (by decide)).2 (by decide)⟩

/-- The target page size (TARGET_PAGE_SIZE, 4 KiB). -/
def TARGET_PAGE_SIZE : Nat := 4096

/-- TARGET_PAGE_ALIGN: round an address up to the next page boundary. -/
def pageAlignUp (a : Nat) : Nat :=
  (a + TARGET_PAGE_SIZE - 1) / TARGET_PAGE_SIZE * TARGET_PAGE_SIZE

/-- Masking with TARGET_PAGE_MASK: round an address down to a page
boundary. -/
def pageAlignDown (a : Nat) : Nat :=
  a / TARGET_PAGE_SIZE * TARGET_PAGE_SIZE

/-- A memory-region section delivered to the container's memory listener:
whether its memory region backs guest RAM or is a guest-exposed IOMMU, its
offset within the address space and within the region, its size, its
read-only flag, and the identity of its memory region. -/
structure MemSection where
  isRam : Bool
  isIommu : Bool
  owas : Nat
  owr : Nat
  size : Nat
  readonly : Bool
  mrId : Nat
deriving DecidableEq, Repr

/-- `vfio_listener_skipped_section`: a section is skipped when its region
neither backs RAM nor is an IOMMU region, or when its offset within the
address space has bit 63 set. -/
def vfio_listener_skipped_section (s : MemSection) : Bool :=
  (!s.isRam && !s.isIommu) || s.owas.testBit 63

/-- One translation entry of a guest IOMMU, as delivered to
`vfio_iommu_map_notify` (directly or replayed at registration): the guest
IOVA, the mapping length (addr_mask + 1), the permission bits (bit 0 read,
bit 1 write, 0 = invalidation), and the outcome of translating the target
address through the system address space — whether the target is plain RAM,
whether the achievable translation length is compatible with the entry's
mask, the resolved host pointer, and whether the backing region is
read-only. -/
structure IOMMUEntry where
  iova : Nat
  len : Nat
  perm : Nat
  vaddr : Nat
  targetIsRam : Bool
  granOk : Bool
  mrReadonly : Bool
deriving DecidableEq, Repr

/-- Build a per-operation host oracle out of the errnos answered to the
first map attempt, the intervening unmap, and the retried map. -/
def hostOf (e1 eu er : Nat) : Nat → HostCall → Nat :=
  fun n _ => if n = 0 then e1 else if n = 1 then eu else er

/-- The IOVA byte range a host DMA call covers. -/
def callRange : HostCall → Set Nat
  | HostCall.mapDMA iova size _ _ => Set.Ico iova (iova + size)
  | HostCall.unmapDMA iova size => Set.Ico iova (iova + size)

/-- The net set of host DMA mappings left by a sequence of issued host
calls: each map call adds its range, each unmap call removes its range. -/
def applyCalls (s : Set Nat) : List HostCall → Set Nat
  | [] => s
  | HostCall.mapDMA iova size vaddr ro :: rest =>
      applyCalls (s ∪ callRange (HostCall.mapDMA iova size vaddr ro)) rest
  | HostCall.unmapDMA iova size :: rest =>
      applyCalls (s \ callRange (HostCall.unmapDMA iova size)) rest

/-- `vfio_iommu_map_notify` for one guest-IOMMU translation entry: resolve
the target through the system address space; do nothing if the target is
not plain RAM or the translation granularity is incompatible; issue a DMA
map (with the busy-retry engine) when the entry grants any access, the
mapping being read-only when the entry lacks write permission or the
backing region is read-only; issue a DMA unmap when the entry grants
none. -/
def vfio_iommu_map_notify (e1 eu er : Nat) (ent : IOMMUEntry) :
    List HostCall :=
  if !ent.targetIsRam then []
  else if !ent.granOk then []
  else if ent.perm % 4 ≠ 0 then
    (vfio_dma_map (hostOf e1 eu er) ent.iova ent.len ent.vaddr
      (!ent.perm.testBit 1 || ent.mrReadonly)).2
  else
    (vfio_dma_unmap (hostOf e1 eu er) 0 ent.iova ent.len).2

/-- `memory_region_iommu_replay` as invoked at guest-IOMMU registration:
deliver every currently valid translation of the guest IOMMU to the
notifier in order; `errs k` gives the host errnos for the k-th entry's DMA
operation. -/
def vfio_iommu_replay (errs : Nat → Nat × Nat × Nat) :
    Nat → List IOMMUEntry → List HostCall
  | _, [] => []
  | k, ent :: rest =>
    vfio_iommu_map_notify (errs k).1 (errs k).2.1 (errs k).2.2 ent ++
      vfio_iommu_replay errs (k + 1) rest

/-- The listener-visible state of a `VFIOContainer`: IOVA bounds, the
`initialized` flag, the deferred first-error slot, whether a fatal
`hw_error` / assertion abort occurred, the net set of host DMA mappings,
and the guest-IOMMU binding list (by memory-region identity, newest
first). -/
structure ContState where
  min_iova : Nat
  max_iova : Nat
  initialized : Bool
  error : Int
  aborted : Bool
  mapped : Set Nat
  giommus : List Nat

/-- The `fail:` label of `vfio_listener_region_add`: before the container
is initialized, record the first error in the deferred-error slot; at
runtime a mapping failure is a fatal `hw_error`. -/
def contFail (st : ContState) (ret : Int) : ContState :=
  if !st.initialized then
    if st.error = 0 then { st with error := ret } else st
  else
    { st with aborted := true }

/-- `QLIST_REMOVE` of the first guest-IOMMU binding matching a memory
region, as done by the del path's QLIST_FOREACH / break loop. -/
def removeFirstGiommu (mr : Nat) : List Nat → List Nat
  | [] => []
  | g :: rest => if g = mr then rest else g :: removeFirstGiommu mr rest

/-- `vfio_listener_region_add`: skip non-RAM/non-IOMMU and upper-half
sections; reject unaligned sections; compute the page-aligned IOVA
interval, returning when it is empty (the conversion of the 128-bit
interval end to a 64-bit address asserts that it fits); reject intervals
outside the container's IOVA bounds through the fail path; for a
guest-IOMMU region create a giommu binding and replay the IOMMU's current
translations; for plain RAM issue a DMA map of the interval, recording a
failure in the deferred-error slot before initialization and aborting
after.  `e1 eu er` are the host errnos for the RAM path's DMA map, `errs`
those for the replayed entries, `entries` the valid translations of each
guest IOMMU.  Returns the new container state and the issued host calls. -/
def vfio_listener_region_add (e1 eu er : Nat) (errs : Nat → Nat × Nat × Nat)
    (entries : Nat → List IOMMUEntry) (st : ContState) (s : MemSection) :
    ContState × List HostCall :=
  if vfio_listener_skipped_section s then (st, [])
  else if s.owas % TARGET_PAGE_SIZE ≠ s.owr % TARGET_PAGE_SIZE then (st, [])
  else
    let iova := pageAlignUp s.owas
    let llend := pageAlignDown (s.owas + s.size)
    if llend ≤ iova then (st, [])
    else if U64 ≤ llend then ({ st with aborted := true }, [])
    else if iova < st.min_iova ∨ st.max_iova < llend - 1 then
      (contFail st (-(EFAULT : Int)), [])
    else if s.isIommu then
      let calls := vfio_iommu_replay errs 0 (entries s.mrId)
      ({ st with giommus := s.mrId :: st.giommus,
                 mapped := applyCalls st.mapped calls }, calls)
    else
      let vaddr := s.owr + (iova - s.owas)
      let r := vfio_dma_map (hostOf e1 eu er) iova (llend - iova) vaddr
        s.readonly
      let st1 := { st with mapped := applyCalls st.mapped r.2 }
      if r.1 = 0 then (st1, r.2) else (contFail st1 r.1, r.2)

/-- `vfio_listener_region_del`: skip and alignment checks mirror the add
path; for a guest-IOMMU region release the first matching giommu binding;
compute the page-aligned interval in 64-bit hwaddr arithmetic (the 128-bit
section size is asserted to fit in 64 bits), returning when it is empty;
otherwise issue one DMA unmap of the whole interval. -/
def vfio_listener_region_del (st : ContState) (s : MemSection) :
    ContState × List HostCall :=
  if vfio_listener_skipped_section s then (st, [])
  else if s.owas % TARGET_PAGE_SIZE ≠ s.owr % TARGET_PAGE_SIZE then (st, [])
  else
    let st1 := if s.isIommu then
        { st with giommus := removeFirstGiommu s.mrId st.giommus }
      else st
    if U64 ≤ s.size then ({ st1 with aborted := true }, [])
    else
      let iova := pageAlignUp s.owas
      let e := pageAlignDown ((s.owas + s.size) % U64)
      if e ≤ iova then (st1, [])
      else
        ({ st1 with mapped :=
            applyCalls st1.mapped [HostCall.unmapDMA iova (e - iova)] },
         [HostCall.unmapDMA iova (e - iova)])

/-- Rounding down to a page boundary never increases an address. -/
theorem pageAlignDown_le (a : Nat) : pageAlignDown a ≤ a :=
  Nat.div_mul_le_self a TARGET_PAGE_SIZE

/-- Removing the head giommu binding just inserted restores the binding
list. -/
theorem removeFirstGiommu_cons_self (mr : Nat) (gs : List Nat) :
    removeFirstGiommu mr (mr :: gs) = gs := by
  simp [removeFirstGiommu]

/-- Removing a giommu binding that is not in the list is a no-op. -/
theorem removeFirstGiommu_not_mem (mr : Nat) :
    ∀ gs : List Nat, mr ∉ gs → removeFirstGiommu mr gs = gs := by
  intro gs
  induction gs with
  | nil => intro _; rfl
  | cons g rest ih =>
    intro h
    have hg : g ≠ mr := fun he => h (he ▸ List.mem_cons_self g rest)
    have hr : mr ∉ rest := fun hm => h (List.mem_cons_of_mem _ hm)
    simp [removeFirstGiommu, hg, ih hr]

/-- If every issued call stays inside the range `r`, the net mapping set
outside `r` is untouched and inside `r` everything is erased by a final
removal of `r`: subtracting `r` after applying the calls equals
subtracting `r` before. -/
theorem applyCalls_sdiff (r : Set Nat) :
    ∀ (calls : List HostCall) (s : Set Nat),
    (∀ c ∈ calls, callRange c ⊆ r) →
    applyCalls s calls \ r = s \ r := by
  intro calls
  induction calls with
  | nil => intro s _; rfl
  | cons c rest ih =>
    intro s h
    have hrest : ∀ c' ∈ rest, callRange c' ⊆ r :=
      fun c' hc' => h c' (List.mem_cons_of_mem _ hc')
    have hc : callRange c ⊆ r := h c (List.mem_cons_self _ _)
    match c with
    | HostCall.mapDMA iova size vaddr ro =>
      rw [applyCalls, ih _ hrest, Set.union_diff_distrib,
        Set.diff_eq_empty.mpr hc, Set.union_empty]
    | HostCall.unmapDMA iova size =>
      rw [applyCalls, ih _ hrest, Set.diff_diff,
        Set.union_eq_right.mpr hc]

/-- Every host call the DMA map engine issues covers exactly the requested
(iova, size) range. -/
theorem vfio_dma_map_calls_range (host : Nat → HostCall → Nat)
    (iova size vaddr : Nat) (ro : Bool) :
    ∀ c ∈ (vfio_dma_map host iova size vaddr ro).2,
      callRange c = Set.Ico iova (iova + size) := by
  intro c hc
  simp only [vfio_dma_map, vfio_dma_unmap] at hc
  have h2 : c = HostCall.mapDMA iova size vaddr ro ∨
      c = HostCall.unmapDMA iova size := by
    split_ifs at hc <;>
      simp only [List.cons_append, List.nil_append, List.mem_cons,
        List.mem_singleton, List.not_mem_nil, or_false] at hc <;>
      tauto
  rcases h2 with rfl | rfl <;> rfl

/-- Every host call the guest-IOMMU notifier issues for a translation entry
covers exactly the entry's (iova, len) range. -/
theorem vfio_iommu_map_notify_calls_range (e1 eu er : Nat)
    (ent : IOMMUEntry) :
    ∀ c ∈ vfio_iommu_map_notify e1 eu er ent,
      callRange c = Set.Ico ent.iova (ent.iova + ent.len) := by
  intro c hc
  simp only [vfio_iommu_map_notify] at hc
  split_ifs at hc
  · exact absurd hc (List.not_mem_nil c)
  · exact absurd hc (List.not_mem_nil c)
  · exact vfio_dma_map_calls_range _ _ _ _ _ c hc
  · simp only [vfio_dma_unmap, List.mem_singleton] at hc
    subst hc; rfl

/-- Every host call issued when replaying guest-IOMMU translations whose
entries lie within `[lo, hi)` stays within `[lo, hi)`. -/
theorem vfio_iommu_replay_calls_subset (errs : Nat → Nat × Nat × Nat)
    (lo hi : Nat) :
    ∀ (ents : List IOMMUEntry) (k : Nat),
    (∀ ent ∈ ents, lo ≤ ent.iova ∧ ent.iova + ent.len ≤ hi) →
    ∀ c ∈ vfio_iommu_replay errs k ents, callRange c ⊆ Set.Ico lo hi := by
  intro ents
  induction ents with
  | nil => intro k _ c hc; exact absurd hc (List.not_mem_nil c)
  | cons ent rest ih =>
    intro k hents c hc
    rw [vfio_iommu_replay, List.mem_append] at hc
    rcases hc with hc | hc
    · have hrange := vfio_iommu_map_notify_calls_range
        (errs k).1 (errs k).2.1 (errs k).2.2 ent c hc
      rw [hrange]
      have hent := hents ent (List.mem_cons_self _ _)
      exact Set.Ico_subset_Ico hent.1 hent.2
    · exact ih (k + 1)
        (fun e he => hents e (List.mem_cons_of_mem _ he)) c hc

/-- The fail path of the add listener never touches the mapping set. -/
theorem contFail_mapped (st : ContState) (ret : Int) :
    (contFail st ret).mapped = st.mapped := by
  unfold contFail; split_ifs <;> rfl

/-- The fail path of the add listener never touches the giommu bindings. -/
theorem contFail_giommus (st : ContState) (ret : Int) :
    (contFail st ret).giommus = st.giommus := by
  unfold contFail; split_ifs <;> rfl

/-- Evaluation of the del listener on a non-skipped, aligned section whose
size fits in 64 bits: the mapping set loses the page-aligned interval (or
nothing when the interval is empty) and the giommu binding list loses its
first entry matching the section's region when the section is an IOMMU. -/
theorem region_del_eval (st : ContState) (s : MemSection)
    (hskip : vfio_listener_skipped_section s = false)
    (halign : s.owas % TARGET_PAGE_SIZE = s.owr % TARGET_PAGE_SIZE)
    (hsz : ¬ U64 ≤ s.size) :
    (vfio_listener_region_del st s).1.mapped =
      (if pageAlignDown ((s.owas + s.size) % U64) ≤ pageAlignUp s.owas
        then st.mapped
        else st.mapped \ Set.Ico (pageAlignUp s.owas)
          (pageAlignUp s.owas +
            (pageAlignDown ((s.owas + s.size) % U64) - pageAlignUp s.owas))) ∧
    (vfio_listener_region_del st s).1.giommus =
      (if s.isIommu then removeFirstGiommu s.mrId st.giommus
        else st.giommus) := by
  by_cases he : pageAlignDown ((s.owas + s.size) % U64) ≤ pageAlignUp s.owas
  · by_cases hio : s.isIommu = true <;>
      simp [vfio_listener_region_del, hskip, halign, hsz, he, hio]
  · by_cases hio : s.isIommu = true <;>
      simp [vfio_listener_region_del, hskip, halign, hsz, he, hio,
        applyCalls, callRange]

/-- C5: a region-add followed by a region-del of the exact same section
leaves the net set of host DMA mappings (map calls minus unmap calls) and
the giommu binding list equal to their state before the add, for any host
responses, provided the section lies within the 64-bit address space, no
prior mapping overlaps the section's page-aligned interval, the replayed
guest-IOMMU translations lie within that interval, and the section's region
has no prior giommu binding. -/
theorem C5_add_del_roundtrip (e1 eu er : Nat) (errs : Nat → Nat × Nat × Nat)
    (entries : Nat → List IOMMUEntry) (st : ContState) (s : MemSection)
    (h1 : s.owas + s.size < U64)
    (h2 : Disjoint st.mapped
      (Set.Ico (pageAlignUp s.owas) (pageAlignDown (s.owas + s.size))))
    (h3 : ∀ ent ∈ entries s.mrId,
      pageAlignUp s.owas ≤ ent.iova ∧
      ent.iova + ent.len ≤ pageAlignDown (s.owas + s.size))
    (h4 : s.mrId ∉ st.giommus) :
    (vfio_listener_region_del
        (vfio_listener_region_add e1 eu er errs entries st s).1 s).1.mapped
      = st.mapped ∧
    (vfio_listener_region_del
        (vfio_listener_region_add e1 eu er errs entries st s).1 s).1.giommus
      = st.giommus := by
  have hszlt : s.size < U64 := lt_of_le_of_lt (Nat.le_add_left _ _) h1
  have hsz : ¬ U64 ≤ s.size := not_le.mpr hszlt
  have hlle : pageAlignDown (s.owas + s.size) ≤ s.owas + s.size :=
    pageAlignDown_le _
  have hllu : ¬ U64 ≤ pageAlignDown (s.owas + s.size) :=
    not_le.mpr (lt_of_le_of_lt hlle h1)
  have hmod : (s.owas + s.size) % U64 = s.owas + s.size := Nat.mod_eq_of_lt h1
  by_cases hskip : vfio_listener_skipped_section s = true
  · simp [vfio_listener_region_add, vfio_listener_region_del, hskip]
  · have hskip' : vfio_listener_skipped_section s = false :=
      Bool.eq_false_iff.mpr hskip
    by_cases halign : s.owas % TARGET_PAGE_SIZE = s.owr % TARGET_PAGE_SIZE
    · by_cases hempty : pageAlignDown (s.owas + s.size) ≤ pageAlignUp s.owas
      · -- empty page-aligned interval: both paths are no-ops
        have hadd : (vfio_listener_region_add e1 eu er errs entries st s).1 =
            st := by
          simp [vfio_listener_region_add, hskip', halign, hempty]
        rw [hadd]
        rcases region_del_eval st s hskip' halign hsz with ⟨hm, hg⟩
        rw [hmod] at hm
        rw [hm, hg, if_pos hempty]
        refine ⟨rfl, ?_⟩
        by_cases hio : s.isIommu = true
        · rw [if_pos hio, removeFirstGiommu_not_mem s.mrId st.giommus h4]
        · rw [if_neg hio]
      · have hrsum : pageAlignUp s.owas +
            (pageAlignDown (s.owas + s.size) - pageAlignUp s.owas) =
            pageAlignDown (s.owas + s.size) := by
          have := not_le.mp hempty
          omega
        have hdel' : ∀ st' : ContState,
            (vfio_listener_region_del st' s).1.mapped =
              st'.mapped \ Set.Ico (pageAlignUp s.owas)
                (pageAlignDown (s.owas + s.size)) ∧
            (vfio_listener_region_del st' s).1.giommus =
              (if s.isIommu then removeFirstGiommu s.mrId st'.giommus
                else st'.giommus) := by
          intro st'
          rcases region_del_eval st' s hskip' halign hsz with ⟨hm, hg⟩
          rw [hmod] at hm
          rw [if_neg hempty, hrsum] at hm
          exact ⟨hm, hg⟩
        have hgio : ∀ gs : List Nat, gs = st.giommus →
            (if s.isIommu then removeFirstGiommu s.mrId gs else gs) =
              st.giommus := by
          intro gs hgs
          rw [hgs]
          by_cases hio : s.isIommu = true
          · rw [if_pos hio, removeFirstGiommu_not_mem s.mrId st.giommus h4]
          · rw [if_neg hio]
        by_cases hbound : pageAlignUp s.owas < st.min_iova ∨
            st.max_iova < pageAlignDown (s.owas + s.size) - 1
        · -- out-of-bounds interval: add takes the fail path, maps nothing
          have hadd : (vfio_listener_region_add e1 eu er errs entries st s).1 =
              contFail st (-(EFAULT : Int)) := by
            simp [vfio_listener_region_add, hskip', halign, hempty, hllu,
              hbound]
          rw [hadd]
          rcases hdel' (contFail st (-(EFAULT : Int))) with ⟨hm, hg⟩
          rw [hm, hg, contFail_mapped, contFail_giommus]
          exact ⟨h2.sdiff_eq_left, hgio st.giommus rfl⟩
        · by_cases hio : s.isIommu = true
          · -- guest-IOMMU branch: giommu binding plus replayed translations
            have hadd :
                (vfio_listener_region_add e1 eu er errs entries st s).1 =
                { st with giommus := s.mrId :: st.giommus,
                          mapped := applyCalls st.mapped
                            (vfio_iommu_replay errs 0 (entries s.mrId)) } := by
              simp [vfio_listener_region_add, hskip', halign, hempty, hllu,
                hbound, hio]
            rw [hadd]
            rcases hdel' _ with ⟨hm, hg⟩
            rw [hm, hg]
            constructor
            · show applyCalls st.mapped _ \ _ = st.mapped
              rw [applyCalls_sdiff _ _ _
                (vfio_iommu_replay_calls_subset errs _ _ (entries s.mrId) 0 h3)]
              exact h2.sdiff_eq_left
            · rw [if_pos hio]
              exact removeFirstGiommu_cons_self s.mrId st.giommus
          · -- plain-RAM branch: one DMA map engine run
            have hcalls : ∀ c ∈ (vfio_dma_map (hostOf e1 eu er)
                (pageAlignUp s.owas)
                (pageAlignDown (s.owas + s.size) - pageAlignUp s.owas)
                (s.owr + (pageAlignUp s.owas - s.owas)) s.readonly).2,
                callRange c ⊆ Set.Ico (pageAlignUp s.owas)
                  (pageAlignDown (s.owas + s.size)) := by
              intro c hc
              rw [vfio_dma_map_calls_range _ _ _ _ _ c hc, hrsum]
            have hadd :
                (vfio_listener_region_add e1 eu er errs entries st s).1.mapped
                  = applyCalls st.mapped (vfio_dma_map (hostOf e1 eu er)
                    (pageAlignUp s.owas)
                    (pageAlignDown (s.owas + s.size) - pageAlignUp s.owas)
                    (s.owr + (pageAlignUp s.owas - s.owas)) s.readonly).2 ∧
                (vfio_listener_region_add e1 eu er errs entries st s).1.giommus
                  = st.giommus := by
              by_cases hr : (vfio_dma_map (hostOf e1 eu er)
                  (pageAlignUp s.owas)
                  (pageAlignDown (s.owas + s.size) - pageAlignUp s.owas)
                  (s.owr + (pageAlignUp s.owas - s.owas)) s.readonly).1 = 0 <;>
                simp [vfio_listener_region_add, hskip', halign, hempty, hllu,
                  hbound, hio, hr, contFail_mapped, contFail_giommus]
            rcases hdel' _ with ⟨hm, hg⟩
            rw [hm, hg, hadd.1, hadd.2]
            constructor
            · rw [applyCalls_sdiff _ _ _ hcalls]
              exact h2.sdiff_eq_left
            · exact hgio st.giommus rfl
    · -- unaligned section: both paths return unchanged
      simp [vfio_listener_region_add, vfio_listener_region_del, hskip',
        halign]

/-- Witness for C5 at a concrete run: an aligned one-page RAM section added
to and removed from a fresh initialized container with no prior mappings,
all host calls succeeding. -/
theorem C5_add_del_roundtrip_witness :
    (vfio_listener_region_del
      (vfio_listener_region_add 0 0 0 (fun _ => (0, 0, 0)) (fun _ => [])
        ⟨0, U64 - 1, true, 0, false, ∅, []⟩
        ⟨true, false, 0, 0, 4096, false, 0⟩).1
      ⟨true, false, 0, 0, 4096, false, 0⟩).1.mapped = (∅ : Set Nat) ∧
    (vfio_listener_region_del
      (vfio_listener_region_add 0 0 0 (fun _ => (0, 0, 0)) (fun _ => [])
        ⟨0, U64 - 1, true, 0, false, ∅, []⟩
        ⟨true, false, 0, 0, 4096, false, 0⟩).1
      ⟨true, false, 0, 0, 4096, false, 0⟩).1.giommus = [] :=
  C5_add_del_roundtrip 0 0 0 (fun _ => (0, 0, 0)) (fun _ => [])
    ⟨0, U64 - 1, true, 0, false, ∅, []⟩
    ⟨true, false, 0, 0, 4096, false, 0⟩
    (by norm_num [U64]) (by simp) (by simp) (by simp)

/-- C6 counterexample: a RAM section at offset 1 (bit 63 clear) with a
mismatched in-region offset 0 does not satisfy the claimed skip condition —
its region backs guest RAM and its address lies in the lower half of the
address space — yet the listener ignores it: the region-add performs no
state change and issues no host call, refuting the claim that sections are
ignored exactly when the skip condition holds. -/
theorem C6_unaligned_ignored :
    vfio_listener_skipped_section ⟨true, false, 1, 0, 8192, false, 0⟩ =
      false ∧
    vfio_listener_region_add 0 0 0 (fun _ => (0, 0, 0)) (fun _ => [])
      ⟨0, U64 - 1, true, 0, false, ∅, []⟩
      ⟨true, false, 1, 0, 8192, false, 0⟩ =
      (⟨0, U64 - 1, true, 0, false, ∅, []⟩, []) := by
  constructor
  · decide
  · simp [vfio_listener_region_add, vfio_listener_skipped_section,
      TARGET_PAGE_SIZE]

/-- C6 (amended): the listener ignores a changed section — no mapping, no
unmapping, no state change — whenever the section's memory region neither
backs guest RAM nor is a guest-exposed IOMMU region or the section's offset
within the address space has bit 63 set (the skip condition); in addition,
a section whose offset alignment within the address space differs from its
alignment within the region, or whose page-aligned interval is empty, is
also ignored. -/
theorem C6_ignored_sections (e1 eu er : Nat) (errs : Nat → Nat × Nat × Nat)
    (entries : Nat → List IOMMUEntry) (st : ContState) (s : MemSection) :
    (vfio_listener_skipped_section s = true →
      vfio_listener_region_add e1 eu er errs entries st s = (st, [])) ∧
    (s.owas % TARGET_PAGE_SIZE ≠ s.owr % TARGET_PAGE_SIZE →
      vfio_listener_region_add e1 eu er errs entries st s = (st, [])) ∧
    (pageAlignDown (s.owas + s.size) ≤ pageAlignUp s.owas →
      vfio_listener_region_add e1 eu er errs entries st s = (st, [])) := by
  refine ⟨fun hskip => ?_, fun halign => ?_, fun hempty => ?_⟩
  · simp [vfio_listener_region_add, hskip]
  · by_cases hskip : vfio_listener_skipped_section s = true <;>
      simp [vfio_listener_region_add, hskip, halign]
  · by_cases hskip : vfio_listener_skipped_section s = true
    · simp [vfio_listener_region_add, hskip]
    · by_cases halign : s.owas % TARGET_PAGE_SIZE = s.owr % TARGET_PAGE_SIZE <;>
        simp [vfio_listener_region_add, hskip, halign, hempty]

/-- Witness for C6 (amended) at concrete sections: a skipped device-memory
section (neither RAM nor IOMMU), an unaligned RAM section, and a RAM
section smaller than one page whose aligned interval is empty. -/
theorem C6_ignored_sections_witness :
    (vfio_listener_region_add 0 0 0 (fun _ => (0, 0, 0)) (fun _ => [])
      ⟨0, U64 - 1, true, 0, false, ∅, []⟩
      ⟨false, false, 0, 0, 4096, false, 0⟩ =
      (⟨0, U64 - 1, true, 0, false, ∅, []⟩, [])) ∧
    (vfio_listener_region_add 0 0 0 (fun _ => (0, 0, 0)) (fun _ => [])
      ⟨0, U64 - 1, true, 0, false, ∅, []⟩
      ⟨true, false, 3, 0, 8192, false, 0⟩ =
      (⟨0, U64 - 1, true, 0, false, ∅, []⟩, [])) ∧
    (vfio_listener_region_add 0 0 0 (fun _ => (0, 0, 0)) (fun _ => [])
      ⟨0, U64 - 1, true, 0, false, ∅, []⟩
      ⟨true, false, 4096, 4096, 100, false, 0⟩ =
      (⟨0, U64 - 1, true, 0, false, ∅, []⟩, [])) :=
  ⟨(C6_ignored_sections 0 0 0 (fun _ => (0, 0, 0)) (fun _ => [])
      ⟨0, U64 - 1, true, 0, false, ∅, []⟩
      ⟨false, false, 0, 0, 4096, false, 0⟩).1 (by decide),
   (C6_ignored_sections 0 0 0 (fun _ => (0, 0, 0)) (fun _ => [])
      ⟨0, U64 - 1, true, 0, false, ∅, []⟩
      ⟨true, false, 3, 0, 8192, false, 0⟩).2.1 (by decide),
   (C6_ignored_sections 0 0 0 (fun _ => (0, 0, 0)) (fun _ => [])
      ⟨0, U64 - 1, true, 0, false, ∅, []⟩
      ⟨true, false, 4096, 4096, 100, false, 0⟩).2.2 (by decide)⟩
